import Mathlib

/-!
Verification of the snapshot pipeline of `playwright-s3-snapshot`.

The development shallowly embeds the pure control flow and string
computations of the repository's Python modules:

* `s3_upload.py` — timestamped S3 key construction in `S3Uploader.upload_file`;
* `snapshot.py` — the `take_snapshot_to_s3` orchestration (temp-file staging,
  upload, cleanup), with the two `datetime.now()` readings and the outcome of
  each I/O stage passed in explicitly;
* `lambda_handler.py` — the serverless request handlers;
* `cli.py` — URL/bucket validation, the per-URL retry loop and the
  process-exit-code policy;
* `config.py` — the arity of `load_config`.

Filesystem state is modelled as the list of existing paths, wall-clock reads
as explicit `PyDateTime` arguments, and fallible external stages (browser
render, S3 transfer) as boolean/`Except` outcomes supplied by the caller.
-/

/-! ## Decimal rendering (Python `str(n)` / `format(n, "0Nd")` / `strftime` padding) -/

/-- The character for a single decimal digit, as Python renders it. -/
def digitChar : Nat → Char
  | 0 => '0' | 1 => '1' | 2 => '2' | 3 => '3' | 4 => '4'
  | 5 => '5' | 6 => '6' | 7 => '7' | 8 => '8' | 9 => '9'
  | _ => '*'

/-- Numeric value of a decimal digit character. -/
def charToDigit (c : Char) : Nat := c.toNat - 48

/-- Fuel-driven big-endian decimal digit rendering of a natural number. -/
def decCharsAux : Nat → Nat → List Char
  | 0, _ => []
  | fuel + 1, n =>
    if n < 10 then [digitChar n]
    else decCharsAux fuel (n / 10) ++ [digitChar (n % 10)]

/-- Big-endian decimal digits of `n`, as Python's `str(n)` produces them. -/
def decChars (n : Nat) : List Char := decCharsAux (n + 1) n

/-- Left inverse of decimal rendering: fold the digit characters back into a
number. -/
def decValue (l : List Char) : Nat := l.foldl (fun a c => 10 * a + charToDigit c) 0

/-- Zero-pad the decimal rendering of `n` to width `w` (Python `"%0Nd"`,
`f"{n:0Nd}"` and the `strftime` two/four-digit fields). -/
def padChars (w n : Nat) : List Char :=
  List.replicate (w - (decChars n).length) '0' ++ decChars n

theorem decCharsAux_fuel_irrel (f₁ : Nat) : ∀ f₂ n, n < f₁ → n < f₂ →
    decCharsAux f₁ n = decCharsAux f₂ n := by
  induction f₁ using Nat.strong_induction_on with
  | _ f₁ ih =>
    intro f₂ n h₁ h₂
    match f₁, f₂ with
    | f₁ + 1, f₂ + 1 =>
      simp only [decCharsAux]
      by_cases h : n < 10
      · simp [h]
      · simp only [if_neg h]
        have hd : n / 10 < n := Nat.div_lt_self (by omega) (by omega)
        rw [ih f₁ (by omega) f₂ (n / 10) (by omega) (by omega)]

theorem decChars_eq (n : Nat) :
    decChars n = if n < 10 then [digitChar n]
      else decChars (n / 10) ++ [digitChar (n % 10)] := by
  have h1 : decChars n =
      if n < 10 then [digitChar n] else decCharsAux n (n / 10) ++ [digitChar (n % 10)] := rfl
  by_cases h : n < 10
  · rw [h1, if_pos h, if_pos h]
  · have hd : n / 10 < n := Nat.div_lt_self (by omega) (by omega)
    rw [h1, if_neg h, if_neg h,
      decCharsAux_fuel_irrel n (n / 10 + 1) (n / 10) hd (Nat.lt_succ_self _)]
    rfl

theorem decChars_ne_nil (n : Nat) : decChars n ≠ [] := by
  rw [decChars_eq n]
  by_cases h : n < 10 <;> simp [h]

theorem charToDigit_digitChar {d : Nat} (h : d < 10) :
    charToDigit (digitChar d) = d := by
  revert h
  have : ∀ d < 10, charToDigit (digitChar d) = d := by decide
  exact this d

theorem decChars_digits (n : Nat) :
    ∀ c ∈ decChars n, 48 ≤ c.toNat ∧ c.toNat ≤ 57 := by
  induction n using Nat.strong_induction_on with
  | _ n ih =>
    intro c hc
    rw [decChars_eq n] at hc
    by_cases h : n < 10
    · rw [if_pos h] at hc
      simp only [List.mem_singleton] at hc
      subst hc
      have : ∀ d < 10, 48 ≤ (digitChar d).toNat ∧ (digitChar d).toNat ≤ 57 := by decide
      exact this n h
    · rw [if_neg h] at hc
      rcases List.mem_append.mp hc with h1 | h2
      · exact ih (n / 10) (Nat.div_lt_self (by omega) (by omega)) c h1
      · simp only [List.mem_singleton] at h2
        subst h2
        have : ∀ d < 10, 48 ≤ (digitChar d).toNat ∧ (digitChar d).toNat ≤ 57 := by decide
        exact this (n % 10) (Nat.mod_lt _ (by omega))

theorem decValue_decChars (n : Nat) : decValue (decChars n) = n := by
  induction n using Nat.strong_induction_on with
  | _ n ih =>
    rw [decChars_eq n]
    by_cases h : n < 10
    · rw [if_pos h]
      simp only [decValue, List.foldl]
      rw [charToDigit_digitChar h]
      omega
    · rw [if_neg h]
      simp only [decValue, List.foldl_append, List.foldl]
      have hrec := ih (n / 10) (Nat.div_lt_self (by omega) (by omega))
      simp only [decValue] at hrec
      rw [hrec, charToDigit_digitChar (Nat.mod_lt _ (by omega))]
      omega

theorem decValue_padChars (w n : Nat) : decValue (padChars w n) = n := by
  have hz : ∀ k, List.foldl (fun a c => 10 * a + charToDigit c) 0
      (List.replicate k '0') = 0 := by
    intro k
    induction k with
    | zero => rfl
    | succ k ihk => simpa [List.replicate_succ, charToDigit] using ihk
  have := decValue_decChars n
  simp only [decValue] at this ⊢
  simp only [padChars, List.foldl_append, hz, this]

theorem padChars_injective (w : Nat) {m n : Nat} (h : padChars w m = padChars w n) :
    m = n := by
  have := decValue_padChars w m
  rw [h, decValue_padChars w n] at this
  omega

theorem padChars_ne_nil (w n : Nat) : padChars w n ≠ [] := by
  simp only [padChars]
  intro hcontra
  rcases List.append_eq_nil.mp hcontra with ⟨_, h2⟩
  exact decChars_ne_nil n h2

theorem padChars_head_digit (w n : Nat) :
    ∀ c, (padChars w n).head? = some c → 48 ≤ c.toNat ∧ c.toNat ≤ 57 := by
  intro c hc
  simp only [padChars] at hc
  cases hw : w - (decChars n).length with
  | zero =>
    rw [hw] at hc
    simp only [List.replicate, List.nil_append] at hc
    cases hdn : decChars n with
    | nil => exact absurd hdn (decChars_ne_nil n)
    | cons a t =>
      rw [hdn, List.head?_cons, Option.some.injEq] at hc
      subst hc
      exact decChars_digits n a (by rw [hdn]; exact List.mem_cons_self a t)
  | succ k =>
    rw [hw] at hc
    simp only [List.replicate_succ, List.cons_append, List.head?_cons,
      Option.some.injEq] at hc
    subst hc
    decide

/-! ## Wall-clock timestamps (`datetime` values and the formats the code uses) -/

/-- A wall-clock reading, standing in for a Python `datetime.datetime` value.
Each `datetime.now()` call site of the source is modelled by an explicit
argument of this type. -/
structure PyDateTime where
  year : Nat
  month : Nat
  day : Nat
  hour : Nat
  minute : Nat
  second : Nat
deriving DecidableEq

/-- `t.strftime("%Y-%m-%d_%H%M%S")`, the timestamp format used for the temp
filename (`snapshot.py` line 56) and the S3 key (`s3_upload.py` line 73). -/
def strftimeYmdHMS (t : PyDateTime) : String :=
  ⟨padChars 4 t.year ++ '-' :: padChars 2 t.month ++ '-' :: padChars 2 t.day ++
    '_' :: padChars 2 t.hour ++ padChars 2 t.minute ++ padChars 2 t.second⟩

/-- `t.isoformat()`, used for the `timestamp` field of the returned record
(`snapshot.py` line 96). -/
def isoformat (t : PyDateTime) : String :=
  ⟨padChars 4 t.year ++ '-' :: padChars 2 t.month ++ '-' :: padChars 2 t.day ++
    'T' :: padChars 2 t.hour ++ ':' :: padChars 2 t.minute ++ ':' :: padChars 2 t.second⟩

/-! ## S3 key construction (`s3_upload.py`, `S3Uploader.upload_file`) -/

/-- Python `s.rstrip("/")`: remove all trailing slash characters. -/
def rstripSlash (s : String) : String :=
  ⟨(s.data.reverse.dropWhile (fun c => c == '/')).reverse⟩

/-- Python `pathlib.PurePath(p).name`: the final path component. -/
def lastComponent (p : String) : List Char :=
  (p.data.reverse.takeWhile (fun c => ! (c == '/'))).reverse

/-- Python `pathlib.PurePath(p).suffix`: the `"." + ext` tail of the final
component, empty when the last dot is at position 0 or at the very end. -/
def pathSuffix (p : String) : String :=
  let name := lastComponent p
  if name.contains '.' then
    let ext := name.reverse.takeWhile (fun c => ! (c == '.'))
    let i := name.length - ext.length - 1
    if 0 < i ∧ i < name.length - 1 then ⟨'.' :: ext.reverse⟩ else ""
  else ""

/-- The S3 object key computed in `S3Uploader.upload_file` (lines 72-79):
normalize the prefix (`rstrip("/") + "/"` when non-empty, kept empty
otherwise) and append the formatted timestamp and the file extension. -/
def upload_file_key (keyPref : String) (t : PyDateTime) (ext : String) : String :=
  let kp := if keyPref = "" then keyPref else rstripSlash keyPref ++ "/"
  kp ++ strftimeYmdHMS t ++ ext

/-- One `s3_client.upload_file` invocation: the bucket and key actually sent
to the storage service. -/
structure UploadCall where
  bucket : String
  key : String
deriving DecidableEq

/-- `S3Uploader.upload_file(file_path, key_prefix, timestamp)`: when the
`timestamp` argument is `none` the method reads the clock again (`now`, the
`datetime.now()` at line 70).  Returns the S3 URL and the upload call made. -/
def upload_file (bucketName filePath keyPref : String)
    (timestamp : Option PyDateTime) (now : PyDateTime) : String × UploadCall :=
  let t := timestamp.getD now
  let key := upload_file_key keyPref t (pathSuffix filePath)
  ("https://" ++ bucketName ++ ".s3.amazonaws.com/" ++ key, ⟨bucketName, key⟩)

/-- The `upload_to_s3` convenience function (`s3_upload.py` line 150): it
calls `upload_file` with only the path and the prefix, leaving the
`timestamp` parameter at its `None` default. -/
def upload_to_s3 (filePath bucketName keyPref : String)
    (now : PyDateTime) : String × UploadCall :=
  upload_file bucketName filePath keyPref none now

/-! ## The snapshot orchestration (`snapshot.py`, `take_snapshot_to_s3`) -/

/-- The success record returned by `take_snapshot_to_s3`. -/
structure SnapshotRecord where
  url : String
  s3_url : String
  s3_key : String
  timestamp : String
  file_size : Nat
deriving DecidableEq

/-- Remove a path from the modelled filesystem
(`Path.unlink(missing_ok=True)`). -/
def unlink (fs : List String) (p : String) : List String :=
  fs.filter (fun q => ! (q == p))

/-- Write a file: afterwards the path exists exactly once. -/
def writeFile (fs : List String) (p : String) : List String := p :: unlink fs p

/-- `take_snapshot_to_s3` (`snapshot.py` lines 53-104).  The filesystem is the
list of existing paths; `tCall` is the `datetime.now()` of line 53 and
`tUpload` the one `upload_file` performs internally; `screenshotOk` is the
outcome of the browser render (`wroteFile` says whether a failed render left
the staged file behind), `uploadOk` the outcome of the S3 transfer, and
`fileSize` the staged file's byte size.  Returns the result, the upload calls
attempted, and the filesystem after the call. -/
def take_snapshot_to_s3 (url bucketName keyPref tempDir : String)
    (cleanupLocal : Bool) (tCall tUpload : PyDateTime) (fs : List String)
    (screenshotOk wroteFile uploadOk : Bool) (fileSize : Nat) :
    Except String SnapshotRecord × List UploadCall × List String :=
  let timestampStr := strftimeYmdHMS tCall
  let tempFile := tempDir ++ "/screenshot_" ++ timestampStr ++ ".png"
  if screenshotOk then
    let fs1 := writeFile fs tempFile
    let localPath := tempFile
    let up := upload_to_s3 localPath bucketName keyPref tUpload
    if uploadOk then
      let kp := if keyPref = "" then keyPref else rstripSlash keyPref ++ "/"
      let s3Key := kp ++ timestampStr ++ ".png"
      let fs2 := if cleanupLocal then unlink fs1 localPath else fs1
      (Except.ok ⟨url, up.1, s3Key, isoformat tCall, fileSize⟩, [up.2], fs2)
    else
      (Except.error "upload failed", [up.2],
        if tempFile ∈ fs1 then unlink fs1 tempFile else fs1)
  else
    let fs1 := if wroteFile then writeFile fs tempFile else fs
    (Except.error "screenshot failed", [],
      if tempFile ∈ fs1 then unlink fs1 tempFile else fs1)

/-! ## String facts and the key-construction claims -/

theorem str_data_append (a b : String) : (a ++ b).data = a.data ++ b.data := by
  cases a
  cases b
  rfl

theorem not_mem_unlink (l : List String) (p : String) : p ∉ unlink l p := by
  intro hmem
  simp [unlink, List.mem_filter] at hmem

theorem cleanup_not_mem (fs1 : List String) (p : String) :
    p ∉ (if p ∈ fs1 then unlink fs1 p else fs1) := by
  by_cases h : p ∈ fs1
  · rw [if_pos h]
    exact not_mem_unlink fs1 p
  · rw [if_neg h]
    exact h

/-- Normalized key prefix as the spec words it, for comparison with the
code's construction: empty for an empty prefix, otherwise the prefix with
trailing slashes trimmed plus a single separator. -/
def specNormalizedPref (p : String) : String :=
  if p = "" then "" else rstripSlash p ++ "/"

theorem strftime_data (t : PyDateTime) : (strftimeYmdHMS t).data =
    ((((padChars 4 t.year ++ ('-' :: padChars 2 t.month)) ++ ('-' :: padChars 2 t.day))
      ++ ('_' :: padChars 2 t.hour)) ++ padChars 2 t.minute) ++ padChars 2 t.second := rfl

theorem strftime_head (t : PyDateTime) (suf : List Char) :
    ∃ a, ((strftimeYmdHMS t).data ++ suf).head? = some a ∧
      48 ≤ a.toNat ∧ a.toNat ≤ 57 := by
  obtain ⟨a, l, hal⟩ := List.exists_cons_of_ne_nil (padChars_ne_nil 4 t.year)
  refine ⟨a, ?_, padChars_head_digit 4 t.year a (by rw [hal]; rfl)⟩
  rw [strftime_data, hal]
  simp [List.cons_append]

/-- C6: the uploader's remote key equals the normalized prefix followed by
the formatted timestamp and the file extension; with prefix `"qa/"` and
extension `".png"` the key is `"qa/" ++ format(T) ++ ".png"`, and with an
empty prefix the key has no leading separator. -/
theorem upload_key_construction (p ext : String) (t : PyDateTime) :
    upload_file_key p t ext = specNormalizedPref p ++ strftimeYmdHMS t ++ ext
    ∧ upload_file_key "qa/" t ".png" = "qa/" ++ strftimeYmdHMS t ++ ".png"
    ∧ (upload_file_key "" t ext).data.head? ≠ some '/' := by
  have hu : ∀ q e, upload_file_key q t e =
      (if q = "" then q else rstripSlash q ++ "/") ++ strftimeYmdHMS t ++ e := by
    intro q e
    rfl
  refine ⟨?_, ?_, ?_⟩
  · rw [hu, specNormalizedPref]
    by_cases hp : p = ""
    · rw [if_pos hp, if_pos hp, hp]
    · rw [if_neg hp, if_neg hp]
  · rw [hu, if_neg (by decide), show rstripSlash "qa/" ++ "/" = "qa/" from by decide]
  · rw [hu, if_pos rfl]
    intro hcontra
    obtain ⟨a, ha, h48, h57⟩ := strftime_head t ext.data
    rw [str_data_append, str_data_append] at hcontra
    rw [show ("" : String).data = [] from rfl, List.nil_append] at hcontra
    rw [ha] at hcontra
    have ha' : a = '/' := by
      simpa using hcontra
    rw [ha'] at h48
    have : ('/').toNat = 47 := rfl
    omega

set_option maxHeartbeats 2000000 in
/-- C1: evaluating `take_snapshot_to_s3` with the call-start clock at
`14:30:22` and the uploader's internal `datetime.now()` one second later:
the staged temp name, the record's `s3_key` and `timestamp` all derive from
the call-start reading, but the key actually sent to S3 (and echoed in
`s3_url`) derives from the second clock reading inside `upload_file`, so the
returned `s3_key` names an object that was never uploaded. -/
theorem snapshot_key_uses_second_clock :
    (take_snapshot_to_s3 "https://example.com" "shots" "qa/" "/tmp" true
        ⟨2025, 7, 15, 14, 30, 22⟩ ⟨2025, 7, 15, 14, 30, 23⟩ [] true true true 55531).1
      = Except.ok ⟨"https://example.com",
          "https://shots.s3.amazonaws.com/qa/2025-07-15_143023.png",
          "qa/2025-07-15_143022.png", "2025-07-15T14:30:22", 55531⟩
    ∧ (take_snapshot_to_s3 "https://example.com" "shots" "qa/" "/tmp" true
        ⟨2025, 7, 15, 14, 30, 22⟩ ⟨2025, 7, 15, 14, 30, 23⟩ [] true true true 55531).2.1
      = [⟨"shots", "qa/2025-07-15_143023.png"⟩]
    ∧ ("qa/2025-07-15_143022.png" : String) ≠ "qa/2025-07-15_143023.png" := by
  refine ⟨rfl, rfl, by decide⟩

/-- C2: with `cleanup_local = true`, whatever the initial filesystem and
whichever stage fails (render failing with or without leaving the staged
file, or the upload failing) or everything succeeding, the staged temp file
`tempDir ++ "/screenshot_" ++ format(T) ++ ".png"` does not exist after the
call. -/
theorem temp_file_never_left (url bucketName keyPref tempDir : String)
    (tCall tUpload : PyDateTime) (fs : List String)
    (sOk wrote uOk : Bool) (sz : Nat) :
    (tempDir ++ "/screenshot_" ++ strftimeYmdHMS tCall ++ ".png") ∉
      (take_snapshot_to_s3 url bucketName keyPref tempDir true tCall tUpload fs
        sOk wrote uOk sz).2.2 := by
  simp only [take_snapshot_to_s3]
  cases sOk with
  | true =>
    cases uOk with
    | true =>
      simp only [if_true]
      exact not_mem_unlink _ _
    | false =>
      simp only [if_true, Bool.false_eq_true, if_false]
      exact cleanup_not_mem _ _
  | false =>
    simp only [Bool.false_eq_true, if_false]
    exact cleanup_not_mem _ _

/-! ## Serverless handlers (`lambda_handler.py`) -/

/-- The fields of the serverless request mapping that the missing-`url` and
missing-bucket paths of `lambda_handler` read; the remaining optional fields
are only read after these checks pass. -/
structure LambdaEvent where
  url : Option String
  bucket : Option String
deriving DecidableEq

/-- The handler's response with its JSON body decoded: status code plus the
`success`/`result`/`error`/`type` fields of the serialized body. -/
structure LambdaResponse where
  statusCode : Nat
  success : Bool
  result : Option SnapshotRecord
  error : Option String
  errType : Option String
deriving DecidableEq

/-- Python truthiness on an optional string: `None` and `""` are falsy. -/
def truthyOpt : Option String → Option String
  | none => none
  | some s => if s = "" then none else some s

/-- `lambda_handler(event, context)` (`lambda_handler.py` lines 45-112): the
`url` check raises `ValueError("URL is required")`, the bucket check falls
back to the `BUCKET_NAME` environment variable, and the single `except`
block converts every raised error into a `statusCode 500` response carrying
the message and the error's type name.  `snap` is the outcome of the
`take_snapshot_to_s3_sync` call as a (type name, message) error or a
record. -/
def lambda_handler (event : LambdaEvent) (envBucketName : Option String)
    (snap : Except (String × String) SnapshotRecord) : LambdaResponse :=
  match truthyOpt event.url with
  | none => ⟨500, false, none, some "URL is required", some "ValueError"⟩
  | some _ =>
    match truthyOpt (match truthyOpt event.bucket with
      | some s => some s
      | none => envBucketName) with
    | none => ⟨500, false, none,
        some "Bucket name is required (via event.bucket or BUCKET_NAME env var)",
        some "ValueError"⟩
    | some _ =>
      match snap with
      | Except.ok r => ⟨200, true, some r, none, none⟩
      | Except.error e => ⟨500, false, none, some e.2, some e.1⟩

/-- Python `f"{i:03d}"`: decimal rendering zero-padded to width 3. -/
def pad3s (i : Nat) : String := ⟨padChars 3 i⟩

/-- The per-URL key prefix built by `batch_handler` for the 1-based index
`i` (`lambda_handler.py` line 153):
`f"{key_prefix}batch-{i:03d}-" if key_prefix else f"batch-{i:03d}-"`. -/
def batchPref (keyPref : String) (i : Nat) : String :=
  if keyPref = "" then "batch-" ++ pad3s i ++ "-"
  else keyPref ++ "batch-" ++ pad3s i ++ "-"

/-! ## CLI validation (`cli.py`, `validate_url` and `validate_s3_bucket_name`) -/

/-- Whether `pre` is a leading segment of `l` (Python `str.startswith`). -/
def startsWithL (pre l : List Char) : Bool := pre.isPrefixOf l

/-- The scheme test of `validate_url` (line 18):
`url.startswith(("http://", "https://"))`. -/
def schemed (s : String) : Bool :=
  startsWithL "http://".data s.data || startsWithL "https://".data s.data

/-- `urllib.parse.urlparse(u).netloc` for the strings `validate_url` parses:
after an `http://`/`https://` scheme marker the authority extends to the
next `/`, `?` or `#`; a string with no `//` after the scheme has an empty
netloc. -/
def netlocOf (u : String) : String :=
  let rest := if startsWithL "http://".data u.data then u.data.drop 7
    else if startsWithL "https://".data u.data then u.data.drop 8
    else []
  ⟨rest.takeWhile (fun c => ! (c == '/' || c == '?' || c == '#'))⟩

/-- `validate_url` (`cli.py` lines 16-25): prepend `https://` when no scheme
is present, then reject strings whose parsed form has an empty netloc
(`argparse.ArgumentTypeError`, the spec's `ValidationError`). -/
def validate_url (url : String) : Except String String :=
  let u := if schemed url then url else "https://" ++ url
  if netlocOf u = "" then Except.error ("Invalid URL: " ++ u)
  else Except.ok u

/-- Lowercase letter or digit: the `[a-z0-9]` class of the bucket regex. -/
def isLowerNum (c : Char) : Bool :=
  (97 ≤ c.toNat && c.toNat ≤ 122) || (48 ≤ c.toNat && c.toNat ≤ 57)

/-- The `[a-z0-9\-]` class of the bucket regex. -/
def isBucketChar (c : Char) : Bool := isLowerNum c || c == '-'

/-- Matcher for the regex tail `[a-z0-9\-]*[a-z0-9]`: all characters in the
class with the final one lowercase-alphanumeric (and at least one
character). -/
def bucketTailMatch : List Char → Bool
  | [] => false
  | [c] => isLowerNum c
  | c :: rest => isBucketChar c && bucketTailMatch rest

/-- Python `re` end-anchor semantics: a plain `$` also matches just before a
single newline at the end of the string. -/
def dollarStrip (l : List Char) : List Char :=
  if l.getLast? == some '\n' then l.dropLast else l

/-- Truthiness of `re.match(r"^[a-z0-9][a-z0-9\-]*[a-z0-9]$", s)`: the whole
string — or the string minus one trailing newline, per `$` semantics —
matches the pattern. -/
def reMatchBucket (l : List Char) : Bool :=
  match dollarStrip l with
  | [] => false
  | c :: rest => isLowerNum c && bucketTailMatch rest

/-- Whether `sub` occurs as a contiguous run at any position of the second
list. -/
def containsSubAux (sub : List Char) : List Char → Bool
  | [] => startsWithL sub []
  | c :: rest => startsWithL sub (c :: rest) || containsSubAux sub rest

/-- Python `sub in s` substring membership. -/
def containsSub (sub s : String) : Bool := containsSubAux sub.data s.data

/-- `validate_s3_bucket_name` (`cli.py` lines 28-42): length bounds, the
character regex, then the `..`/`.-`/`-.` substring checks. -/
def validate_s3_bucket_name (bucket : String) : Except String String :=
  if bucket.length < 3 || 63 < bucket.length then
    Except.error "S3 bucket name must be between 3 and 63 characters"
  else if ! reMatchBucket bucket.data then
    Except.error "S3 bucket name must start and end with lowercase letter or number and contain only lowercase letters, numbers, and hyphens"
  else if containsSub ".." bucket || containsSub ".-" bucket || containsSub "-." bucket then
    Except.error "S3 bucket name cannot contain consecutive periods or period-hyphen combinations"
  else Except.ok bucket

/-! ## CLI retry loop and exit-code policy (`cli.py`, `main`) -/

/-- Observable events of one URL's retry loop: a numbered attempt (1-based),
the fixed `time.sleep(2)` backoff, and the final error log once the retry
budget is exhausted. -/
inductive RetryEv where
  | attempt (i : Nat)
  | sleepBackoff (secs : Nat)
  | recordError (msg : String)
deriving DecidableEq

/-- The `while retry_count < args.retries and not success` loop of `main`
(`cli.py` lines 200-273), with the body's outcome supplied by `outcome`
(`none` = the attempt succeeded, `some e` = it raised `e`).  The fuel
argument only drives the recursion; `retryLoop` supplies enough for the
loop to run to its natural termination.  Returns the final `success` flag
and the event trace. -/
def retryAux (retries : Nat) (outcome : Nat → Option String) :
    Nat → Nat → Bool × List RetryEv
  | 0, _ => (false, [])
  | fuel + 1, rc =>
    if rc < retries then
      match outcome rc with
      | none => (true, [RetryEv.attempt (rc + 1)])
      | some e =>
        if rc + 1 < retries then
          let r := retryAux retries outcome fuel (rc + 1)
          (r.1, RetryEv.attempt (rc + 1) :: RetryEv.sleepBackoff 2 :: r.2)
        else (false, [RetryEv.attempt (rc + 1), RetryEv.recordError e])
    else (false, [])

/-- One URL's retry loop with retry bound `retries`, started at
`retry_count = 0`. -/
def retryLoop (retries : Nat) (outcome : Nat → Option String) : Bool × List RetryEv :=
  retryAux retries outcome retries 0

/-- Whether a trace event is an attempt. -/
def isAttempt : RetryEv → Bool
  | RetryEv.attempt _ => true
  | _ => false

/-- Number of attempts recorded in a trace. -/
def attemptsOf (tr : List RetryEv) : Nat := (tr.filter isAttempt).length

/-- The exit-code computation at the end of `main` (`cli.py` lines 275-288):
given the per-URL success flags in input order, return 1 early when a batch
(more than one URL) had any failure, otherwise 0 exactly when at least one
URL succeeded; a `KeyboardInterrupt` yields 130. -/
def cli_exit_code (outcomes : List Bool) (interrupted : Bool) : Nat :=
  if interrupted then 130
  else
    let successCount := outcomes.count true
    let totalUrls := outcomes.length
    if 1 < totalUrls ∧ successCount < totalUrls then 1
    else if 0 < successCount then 0 else 1

/-! ## Configuration loading (`config.py` and the call in `cli.py`) -/

/-- Number of parameters of `config.load_config` without a default value:
its signature is `load_config(config_file: str)` (`config.py` line 79). -/
def load_config_required_positional : Nat := 1

/-- Number of arguments passed at the call `config = load_config()` in
`cli.main` (`cli.py` line 71). -/
def load_config_args_supplied : Nat := 0

/-- Python call-arity check: calling a function with fewer positional
arguments than its required parameters raises `TypeError` before the body
runs. -/
def pythonCallCheck (required supplied : Nat) : Except String Unit :=
  if supplied < required then
    Except.error "TypeError: load_config() missing 1 required positional argument: config_file"
  else Except.ok ()

/-- `cli.main`: the `load_config()` call (line 71) runs before the argument
parser is constructed (line 73) and outside the `try` block (line 181), so
`rest` — everything in `main` after that call, including all argument
parsing and the `try`/`except` that maps errors to exit codes — only runs
if the call succeeds, and an error from the call propagates out of `main`
unchanged. -/
def cli_main (rest : List String → Except String Nat) (argv : List String) :
    Except String Nat :=
  match pythonCallCheck load_config_required_positional load_config_args_supplied with
  | Except.error e => Except.error e
  | Except.ok _ => rest argv

/-! ## Claims on the handlers, validators and configuration call -/

theorem str_ext (a b : String) (h : a.data = b.data) : a = b := by
  cases a
  cases b
  exact congrArg String.mk h

theorem append_middle_cancel (a b x y : String)
    (h : (a ++ x) ++ b = (a ++ y) ++ b) : x = y := by
  have hd := congrArg String.data h
  rw [str_data_append, str_data_append, str_data_append, str_data_append] at hd
  exact str_ext x y (List.append_cancel_left (List.append_cancel_right hd))

/-- C3: a serverless request without a `url` key (or with a falsy empty
one) makes `lambda_handler` return `statusCode` 500 — not a 4xx status —
while the body does carry `success: false` and the error message
"URL is required", independently of the environment and of the snapshot
stage. -/
theorem lambda_missing_url_gives_500 :
    (∀ env snap, lambda_handler ⟨none, some "test-bucket"⟩ env snap
        = ⟨500, false, none, some "URL is required", some "ValueError"⟩)
    ∧ (∀ env snap, lambda_handler ⟨some "", some "test-bucket"⟩ env snap
        = ⟨500, false, none, some "URL is required", some "ValueError"⟩)
    ∧ (∀ env snap, ¬ (400 ≤ (lambda_handler ⟨none, some "test-bucket"⟩ env snap).statusCode
          ∧ (lambda_handler ⟨none, some "test-bucket"⟩ env snap).statusCode ≤ 499)) := by
  refine ⟨fun env snap => rfl, fun env snap => rfl, fun env snap => ?_⟩
  intro hcontra
  have h500 : (lambda_handler ⟨none, some "test-bucket"⟩ env snap).statusCode = 500 := rfl
  rw [h500] at hcontra
  omega

/-- C10: the batch handler's per-URL prefix equals
`p ++ "batch-" ++ pad3(i) ++ "-"` for a non-empty base prefix and
`"batch-" ++ pad3(i) ++ "-"` for an empty one, and distinct 1-based indices
in a batch always receive distinct prefixes. -/
theorem batch_prefixes_distinct (p : String) (i j : Nat) :
    (p ≠ "" → batchPref p i = p ++ "batch-" ++ pad3s i ++ "-")
    ∧ (p = "" → batchPref p i = "batch-" ++ pad3s i ++ "-")
    ∧ (i ≠ j → batchPref p i ≠ batchPref p j) := by
  refine ⟨fun hp => by simp [batchPref, hp], fun hp => by simp [batchPref, hp], ?_⟩
  intro hij heq
  have hpad : pad3s i = pad3s j := by
    by_cases hp : p = ""
    · rw [hp] at heq
      simp only [batchPref, if_pos rfl] at heq
      exact append_middle_cancel "batch-" "-" _ _ heq
    · simp only [batchPref, if_neg hp] at heq
      exact append_middle_cancel (p ++ "batch-") "-" _ _ heq
  exact hij (padChars_injective 3 (congrArg String.data hpad))

/-- C3 and C10 both concern `lambda_handler.py`; this section's remaining
claims concern `cli.py`.  C7: a scheme-less string whose `https://`-prefixed
form has a non-empty netloc is returned with `https://` prepended, and any
string whose normalized form parses with an empty netloc is rejected. -/
theorem validate_url_spec (s : String) :
    (schemed s = false → netlocOf ("https://" ++ s) ≠ "" →
      validate_url s = Except.ok ("https://" ++ s) ∧ netlocOf ("https://" ++ s) ≠ "")
    ∧ (netlocOf (if schemed s then s else "https://" ++ s) = "" →
      ∃ m, validate_url s = Except.error m) := by
  constructor
  · intro h1 h2
    refine ⟨?_, h2⟩
    simp only [validate_url, h1, Bool.false_eq_true, if_false, if_neg h2]
  · intro h
    refine ⟨"Invalid URL: " ++ (if schemed s then s else "https://" ++ s), ?_⟩
    simp only [validate_url]
    rw [if_pos h]

/-- C8: the bucket-name validator accepts `"ab\n"` and returns it
unchanged: the Python regex `$` anchor also matches just before a trailing
newline, so this name passes even though the newline violates the
character-set rule the validator itself announces (lowercase letters,
digits and hyphens only). -/
theorem bucket_name_newline_accepted :
    validate_s3_bucket_name "ab\n" = Except.ok "ab\n"
    ∧ ¬ (∀ c ∈ ("ab\n" : String).data, isBucketChar c = true) := by
  constructor
  · rfl
  · decide

/-- C9: every invocation of `cli.main` fails with the `TypeError` produced
by calling `load_config` with zero arguments against its one required
positional parameter; the failure is independent of the command line (no
argument is parsed yet) and of everything after the call (the `try` block
included), so it propagates out of `main` instead of becoming an exit
code. -/
theorem cli_main_raises_type_error (rest : List String → Except String Nat)
    (argv : List String) :
    cli_main rest argv
      = Except.error "TypeError: load_config() missing 1 required positional argument: config_file"
    ∧ load_config_args_supplied < load_config_required_positional :=
  ⟨rfl, by decide⟩

/-! ## Retry-loop lemmas (C4) -/

theorem attemptsOf_nil : attemptsOf [] = 0 := rfl

theorem attemptsOf_cons_attempt (i : Nat) (tr : List RetryEv) :
    attemptsOf (RetryEv.attempt i :: tr) = attemptsOf tr + 1 := by
  simp [attemptsOf, List.filter_cons, isAttempt]

theorem attemptsOf_cons_sleep (s : Nat) (tr : List RetryEv) :
    attemptsOf (RetryEv.sleepBackoff s :: tr) = attemptsOf tr := by
  simp [attemptsOf, List.filter_cons, isAttempt]

theorem attemptsOf_cons_record (m : String) (tr : List RetryEv) :
    attemptsOf (RetryEv.recordError m :: tr) = attemptsOf tr := by
  simp [attemptsOf, List.filter_cons, isAttempt]

theorem retryAux_succ (n : Nat) (o : Nat → Option String) (fuel rc : Nat) :
    retryAux n o (fuel + 1) rc =
      if rc < n then
        match o rc with
        | none => (true, [RetryEv.attempt (rc + 1)])
        | some e =>
          if rc + 1 < n then
            let r := retryAux n o fuel (rc + 1)
            (r.1, RetryEv.attempt (rc + 1) :: RetryEv.sleepBackoff 2 :: r.2)
          else (false, [RetryEv.attempt (rc + 1), RetryEv.recordError e])
      else (false, []) := rfl

theorem retryAux_attempts_le (n : Nat) (o : Nat → Option String) :
    ∀ fuel rc, attemptsOf (retryAux n o fuel rc).2 ≤ n - rc := by
  intro fuel
  induction fuel with
  | zero =>
    intro rc
    simp [retryAux, attemptsOf]
  | succ fuel ih =>
    intro rc
    rw [retryAux_succ]
    by_cases hrc : rc < n
    · rw [if_pos hrc]
      cases ho : o rc with
      | none =>
        simp only
        rw [attemptsOf_cons_attempt, attemptsOf_nil]
        omega
      | some e =>
        by_cases h2 : rc + 1 < n
        · simp only [if_pos h2]
          have := ih (rc + 1)
          rw [attemptsOf_cons_attempt, attemptsOf_cons_sleep]
          omega
        · simp only [if_neg h2]
          rw [attemptsOf_cons_attempt, attemptsOf_cons_record, attemptsOf_nil]
          omega
    · rw [if_neg hrc]
      simp [attemptsOf]

theorem retryAux_head (n : Nat) (o : Nat → Option String) (fuel rc : Nat)
    (hfuel : n - rc ≤ fuel) (hrc : rc < n) :
    (retryAux n o fuel rc).2[0]? = some (RetryEv.attempt (rc + 1)) := by
  match fuel with
  | 0 => omega
  | fuel + 1 =>
    rw [retryAux_succ, if_pos hrc]
    cases ho : o rc with
    | none => rfl
    | some e =>
      by_cases h2 : rc + 1 < n
      · simp [if_pos h2]
      · simp [if_neg h2]

theorem retryAux_backoff (n : Nat) (o : Nat → Option String) :
    ∀ fuel rc i k, n - rc ≤ fuel →
      (retryAux n o fuel rc).2[i]? = some (RetryEv.attempt k) →
      (o (k - 1)).isSome = true → k < n →
      (retryAux n o fuel rc).2[i + 1]? = some (RetryEv.sleepBackoff 2) ∧
      (retryAux n o fuel rc).2[i + 2]? = some (RetryEv.attempt (k + 1)) := by
  intro fuel
  induction fuel with
  | zero =>
    intro rc i k hfuel hget hsome hk
    simp [retryAux] at hget
  | succ fuel ih =>
    intro rc i k hfuel hget hsome hk
    by_cases hrc : rc < n
    · cases ho : o rc with
      | none =>
        rw [retryAux_succ, if_pos hrc] at hget
        simp only [ho] at hget
        match i with
        | 0 =>
          rw [List.getElem?_cons_zero, Option.some.injEq, RetryEv.attempt.injEq] at hget
          rw [← hget] at hsome
          simp [ho] at hsome
        | i' + 1 =>
          rw [List.getElem?_cons_succ, List.getElem?_nil] at hget
          exact absurd hget (by simp)
      | some e =>
        by_cases h2 : rc + 1 < n
        · rw [retryAux_succ, if_pos hrc] at hget ⊢
          simp only [ho, if_pos h2] at hget ⊢
          match i with
          | 0 =>
            rw [List.getElem?_cons_zero, Option.some.injEq, RetryEv.attempt.injEq] at hget
            subst hget
            constructor
            · rw [List.getElem?_cons_succ, List.getElem?_cons_zero]
            · rw [List.getElem?_cons_succ, List.getElem?_cons_succ]
              exact retryAux_head n o fuel (rc + 1) (by omega) h2
          | 1 =>
            rw [List.getElem?_cons_succ, List.getElem?_cons_zero] at hget
            exact absurd hget (by simp)
          | i' + 2 =>
            rw [List.getElem?_cons_succ, List.getElem?_cons_succ] at hget
            have := ih (rc + 1) i' k (by omega) hget hsome hk
            constructor
            · rw [List.getElem?_cons_succ, List.getElem?_cons_succ]
              exact this.1
            · rw [List.getElem?_cons_succ, List.getElem?_cons_succ]
              exact this.2
        · rw [retryAux_succ, if_pos hrc] at hget
          simp only [ho, if_neg h2] at hget
          match i with
          | 0 =>
            rw [List.getElem?_cons_zero, Option.some.injEq, RetryEv.attempt.injEq] at hget
            omega
          | 1 =>
            rw [List.getElem?_cons_succ, List.getElem?_cons_zero] at hget
            exact absurd hget (by simp)
          | i' + 2 =>
            rw [List.getElem?_cons_succ, List.getElem?_cons_succ, List.getElem?_nil] at hget
            exact absurd hget (by simp)
    · rw [retryAux_succ, if_neg hrc] at hget
      simp at hget

theorem retryAux_all_fail (n : Nat) (o : Nat → Option String)
    (hall : ∀ k, k < n → (o k).isSome = true) :
    ∀ fuel rc, n - rc ≤ fuel → rc < n →
      (retryAux n o fuel rc).1 = false ∧
      attemptsOf (retryAux n o fuel rc).2 = n - rc ∧
      (retryAux n o fuel rc).2.getLast? = some (RetryEv.recordError ((o (n - 1)).getD "")) := by
  intro fuel
  induction fuel with
  | zero =>
    intro rc h1 h2
    omega
  | succ fuel ih =>
    intro rc hfuel hrc
    obtain ⟨e, he⟩ := Option.isSome_iff_exists.mp (hall rc hrc)
    rw [retryAux_succ, if_pos hrc]
    simp only [he]
    by_cases h2 : rc + 1 < n
    · simp only [if_pos h2]
      obtain ⟨hsucc, hatt, hlast⟩ := ih (rc + 1) (by omega) h2
      refine ⟨hsucc, ?_, ?_⟩
      · rw [attemptsOf_cons_attempt, attemptsOf_cons_sleep, hatt]
        omega
      · have hne : (retryAux n o fuel (rc + 1)).2 ≠ [] := by
          intro hnil
          rw [hnil, attemptsOf_nil] at hatt
          omega
        obtain ⟨x, l', hxl⟩ := List.exists_cons_of_ne_nil hne
        rw [hxl] at hlast ⊢
        rw [List.getLast?_cons_cons, List.getLast?_cons_cons]
        exact hlast
    · have hn : rc + 1 = n := by omega
      simp only [if_neg h2]
      refine ⟨by trivial, ?_, ?_⟩
      · rw [attemptsOf_cons_attempt, attemptsOf_cons_record, attemptsOf_nil]
        omega
      · have hne : o (n - 1) = some e := by
          rw [show n - 1 = rc from by omega]
          exact he
        rw [hne]
        rfl

/-- C4: for the CLI retry loop with bound `n ≥ 1`: the number of attempts
never exceeds `n`; every failed attempt that is not the last is immediately
followed by the fixed 2-second backoff and then the next attempt; when all
`n` attempts fail the loop ends unsuccessfully having made exactly `n`
attempts and records the last attempt's error; and when the first two
attempts fail and the third succeeds with `n = 3`, the loop ends
successfully with exactly 3 attempts made. -/
theorem retry_loop_spec (n : Nat) (o : Nat → Option String) (hn : 1 ≤ n) :
    attemptsOf (retryLoop n o).2 ≤ n
    ∧ (∀ i k, (retryLoop n o).2[i]? = some (RetryEv.attempt k) →
        (o (k - 1)).isSome = true → k < n →
        (retryLoop n o).2[i + 1]? = some (RetryEv.sleepBackoff 2) ∧
        (retryLoop n o).2[i + 2]? = some (RetryEv.attempt (k + 1)))
    ∧ ((∀ k, k < n → (o k).isSome = true) →
        (retryLoop n o).1 = false ∧ attemptsOf (retryLoop n o).2 = n ∧
        (retryLoop n o).2.getLast? = some (RetryEv.recordError ((o (n - 1)).getD "")))
    ∧ ((o 0).isSome = true → (o 1).isSome = true → o 2 = none → n = 3 →
        (retryLoop n o).1 = true ∧ attemptsOf (retryLoop n o).2 = 3) := by
  refine ⟨?_, ?_, ?_, ?_⟩
  · have := retryAux_attempts_le n o n 0
    simpa [retryLoop] using this
  · intro i k hget hsome hk
    exact retryAux_backoff n o n 0 i k (by omega) hget hsome hk
  · intro hall
    have := retryAux_all_fail n o hall n 0 (by omega) hn
    simpa [retryLoop] using this
  · intro h0 h1 h2 hn3
    subst hn3
    obtain ⟨e0, he0⟩ := Option.isSome_iff_exists.mp h0
    obtain ⟨e1, he1⟩ := Option.isSome_iff_exists.mp h1
    have s2 : retryAux 3 o 1 2 = (true, [RetryEv.attempt 3]) := by
      rw [show retryAux 3 o 1 2 = retryAux 3 o (0 + 1) 2 from rfl, retryAux_succ,
        if_pos (by omega)]
      simp [h2]
    have s1 : retryAux 3 o 2 1 =
        (true, RetryEv.attempt 2 :: RetryEv.sleepBackoff 2 :: [RetryEv.attempt 3]) := by
      rw [show retryAux 3 o 2 1 = retryAux 3 o (1 + 1) 1 from rfl, retryAux_succ,
        if_pos (by omega)]
      simp only [he1, if_pos (by omega : 1 + 1 < 3), s2]
    have s0 : retryLoop 3 o =
        (true, RetryEv.attempt 1 :: RetryEv.sleepBackoff 2 :: RetryEv.attempt 2 ::
          RetryEv.sleepBackoff 2 :: [RetryEv.attempt 3]) := by
      rw [show retryLoop 3 o = retryAux 3 o (2 + 1) 0 from rfl, retryAux_succ,
        if_pos (by omega)]
      simp only [he0, if_pos (by omega : 0 + 1 < 3), s1]
    rw [s0]
    refine ⟨rfl, ?_⟩
    rw [attemptsOf_cons_attempt, attemptsOf_cons_sleep, attemptsOf_cons_attempt,
      attemptsOf_cons_sleep, attemptsOf_cons_attempt, attemptsOf_nil]

/-! ## Exit-code policy (C5) and witnesses -/

theorem cli_exit_code_run (l : List Bool) :
    cli_exit_code l false =
      if 1 < l.length ∧ l.count true < l.length then 1
      else if 0 < l.count true then 0 else 1 := rfl

/-- C5: the CLI run exits with 130 when interrupted by the operator;
otherwise the exit code is 0 exactly when the single URL succeeded
(single-URL mode) or every URL succeeded (batch mode), and every other
completed run exits with 1. -/
theorem cli_exit_policy (outcomes : List Bool) (interrupted : Bool)
    (hne : outcomes ≠ []) :
    (interrupted = true → cli_exit_code outcomes interrupted = 130)
    ∧ (interrupted = false →
        ((cli_exit_code outcomes interrupted = 0 ↔
          ((outcomes.length = 1 ∧ outcomes.head? = some true)
            ∨ (1 < outcomes.length ∧ ∀ b ∈ outcomes, b = true)))
        ∧ (cli_exit_code outcomes interrupted = 0 ∨ cli_exit_code outcomes interrupted = 1))) := by
  constructor
  · intro hi
    subst hi
    rfl
  · intro hi
    subst hi
    rw [cli_exit_code_run]
    cases outcomes with
    | nil => exact absurd rfl hne
    | cons b t =>
      cases t with
      | nil => cases b <;> decide
      | cons c t' =>
        have hlen : 1 < (b :: c :: t').length := by simp
        have hcle : (b :: c :: t').count true ≤ (b :: c :: t').length :=
          List.count_le_length true (b :: c :: t')
        by_cases hall : ∀ x ∈ b :: c :: t', x = true
        · have hcount : (b :: c :: t').count true = (b :: c :: t').length :=
            List.count_eq_length.mpr (fun x hx => (hall x hx).symm)
          rw [if_neg (by omega), if_pos (by omega)]
          refine ⟨⟨fun _ => Or.inr ⟨hlen, hall⟩, fun _ => rfl⟩, Or.inl rfl⟩
        · have hne2 : (b :: c :: t').count true ≠ (b :: c :: t').length := by
            intro hcc
            exact hall (fun x hx => (List.count_eq_length.mp hcc x hx).symm)
          have hlt : (b :: c :: t').count true < (b :: c :: t').length := by omega
          rw [if_pos ⟨hlen, hlt⟩]
          refine ⟨⟨fun h10 => absurd h10 (by omega), fun hr => ?_⟩, Or.inr rfl⟩
          rcases hr with ⟨h1, _⟩ | ⟨_, hall'⟩
          · rw [List.length_cons, List.length_cons] at h1
            omega
          · exact absurd hall' hall

/-- Witness for C5 at the concrete batch `[true, false]` with no interrupt. -/
theorem cli_exit_policy_witness :
    (false = true → cli_exit_code [true, false] false = 130)
    ∧ (false = false →
        ((cli_exit_code [true, false] false = 0 ↔
          (([true, false].length = 1 ∧ [true, false].head? = some true)
            ∨ (1 < [true, false].length ∧ ∀ b ∈ [true, false], b = true)))
        ∧ (cli_exit_code [true, false] false = 0 ∨ cli_exit_code [true, false] false = 1))) :=
  cli_exit_policy [true, false] false (by decide)

/-- Witness for C4: with `retries = 3` and the render failing twice before
succeeding, the loop ends successfully after exactly 3 attempts. -/
theorem retry_loop_spec_witness :
    (retryLoop 3 (fun k => if k < 2 then some "boom" else none)).1 = true ∧
    attemptsOf (retryLoop 3 (fun k => if k < 2 then some "boom" else none)).2 = 3 :=
  (retry_loop_spec 3 (fun k => if k < 2 then some "boom" else none) (by decide)).2.2.2
    (by decide) (by decide) (by decide) rfl

/-- Witness for C7 at `"example.com"` (scheme-less, valid) and `"https://"`
(empty netloc). -/
theorem validate_url_spec_witness :
    (validate_url "example.com" = Except.ok ("https://" ++ "example.com")
      ∧ netlocOf ("https://" ++ "example.com") ≠ "")
    ∧ ∃ m, validate_url "https://" = Except.error m :=
  ⟨(validate_url_spec "example.com").1 (by decide) (by decide),
   (validate_url_spec "https://").2 (by decide)⟩

/-- Witness for C10 at base prefix `"qa/"` and indices 1 and 2. -/
theorem batch_prefixes_distinct_witness :
    batchPref "qa/" 1 = "qa/" ++ "batch-" ++ pad3s 1 ++ "-"
    ∧ batchPref "" 2 = "batch-" ++ pad3s 2 ++ "-"
    ∧ batchPref "qa/" 1 ≠ batchPref "qa/" 2 :=
  ⟨(batch_prefixes_distinct "qa/" 1 2).1 (by decide),
   (batch_prefixes_distinct "" 2 1).2.1 rfl,
   (batch_prefixes_distinct "qa/" 1 2).2.2 (by decide)⟩
